import Mathlib

/-!
Shallow embedding of the attempt timing and submission protocol of the
online quiz application (frontend): the `QuizRunner` component
(`startQuiz`, `handleSubmit`, `handleTimeUp`) and the `Timer` component.

JavaScript's loosely typed values are modelled by `JsVal`; `NaN` arising
from `Number(...)` coercions is modelled by `none : Option Int`; times are
integer milliseconds.  `Date` parsing is passed in as a function
`dparse : String → Option Int` (`none` = invalid date).  The browser's
timer queue (`setTimeout`/`setInterval`) is modelled by a discrete-event
scheduler: the earliest due callback fires next, with ties resolved in
registration order (the one-shot timeout is registered before the
interval, so it wins ties).
-/

namespace QuizApp

/-- A JavaScript value as it appears in the loosely typed response fields. -/
inductive JsVal where
  | undef
  | nullv
  | num (n : Int)
  | str (s : String)
deriving DecidableEq, Repr

/-- JavaScript truthiness of a `JsVal` (`undefined`, `null`, `0`, `""` are falsy). -/
def JsVal.truthy : JsVal → Bool
  | .undef => false
  | .nullv => false
  | .num n => n != 0
  | .str s => s != ""

/-- Whether a value is `undefined` or `null` (the `??` operator's test). -/
def JsVal.isNullish : JsVal → Bool
  | .undef => true
  | .nullv => true
  | _ => false

/-- Reading of a run of decimal digits; `none` as soon as a non-digit
appears. -/
def parseDigitsAux : List Char → Nat → Option Nat
  | [], acc => some acc
  | c :: cs, acc =>
      if c.isDigit then parseDigitsAux cs (acc * 10 + (c.toNat - 48)) else none

/-- Coercion `Number(s)` on a string: decimal integers (with optional
leading minus sign) only; `""` coerces to `0`; anything else is `NaN`
(`none`). -/
def strToNumber (s : String) : Option Int :=
  match s.data with
  | [] => some 0
  | '-' :: rest =>
      if rest = [] then none
      else (parseDigitsAux rest 0).map (fun n => -(n : Int))
  | cs => (parseDigitsAux cs 0).map (fun n => (n : Int))

/-- Coercion `Number(v)`; `none` models `NaN`. -/
def JsVal.toNumber : JsVal → Option Int
  | .undef => none
  | .nullv => some 0
  | .num n => some n
  | .str s => strToNumber s

/-- JavaScript `a || b`: `a` when truthy, else `b`. -/
def jsOr (a b : JsVal) : JsVal := if a.truthy then a else b

/-- JavaScript object-key coercion of a question id. -/
def jsKey : JsVal → String
  | .undef => "undefined"
  | .nullv => "null"
  | .num n => toString n
  | .str s => s

/-- Computation `Math.max(1, x)`; `NaN` (`none`) propagates, as in JavaScript. -/
def jsMax1 (x : Option Int) : Option Int := x.map (fun v => max 1 v)

/-- Addition propagating `NaN`. -/
def oAdd (a b : Option Int) : Option Int :=
  match a, b with
  | some x, some y => some (x + y)
  | _, _ => none

/-- Subtraction propagating `NaN`. -/
def oSub (a b : Option Int) : Option Int :=
  match a, b with
  | some x, some y => some (x - y)
  | _, _ => none

/-- Multiplication by a constant, propagating `NaN`. -/
def oMulK (a : Option Int) (k : Int) : Option Int := a.map (fun v => v * k)

/-- JavaScript `x <= 0` where `x` may be `NaN` (`NaN <= 0` is `false`). -/
def jsLe0 : Option Int → Bool
  | some r => decide (r ≤ 0)
  | none => false

/-! ## The `Timer` component (`src/unnamed/part_003`) -/

/-- State of a mounted `Timer` component together with its pending timer
queue and the observable history of its callbacks. -/
structure TimerState where
  /-- Current wall-clock time in ms. -/
  now : Int
  /-- The `timeLeft` display state in seconds; `none` models `NaN`. -/
  timeLeft : Option Int
  /-- Fire time of the armed one-shot `setTimeout`, if armed. -/
  timeoutAt : Option Int
  /-- Next fire time of the armed `setInterval` (period 1000 ms), if armed. -/
  intervalNext : Option Int
  /-- The parsed `endTime` prop captured by the effect; `none` = invalid date. -/
  endMs : Option Int
  /-- Number of `onTimeUp` invocations so far. -/
  timeUpCalls : Nat
  /-- Time at which `onTimeUp` fired, if it has. -/
  timeUpAt : Option Int
  /-- Times of the periodic display updates that have run. -/
  ticks : List Int
deriving DecidableEq, Repr

/-- Function `calculateTimeLeft`: `Math.max(0, end - now)`, where an unparseable
`endTime` gives `NaN` (`Math.max(0, NaN)` is `NaN`). -/
def calculateTimeLeft (endMs : Option Int) (t : Int) : Option Int :=
  endMs.map (fun e => max 0 (e - t))

/-- Mounting the `Timer` effect at time `now0` with parsed deadline
`endMs`: computes the initial time left, and arms the one-shot expiry
timeout and the 1-second display interval only when the initial time left
is strictly positive (`NaN` compares `false`). -/
def timerStart (endMs : Option Int) (now0 : Int) : TimerState :=
  let initial := calculateTimeLeft endMs now0
  let armed : Bool :=
    match initial with
    | some v => decide (0 < v)
    | none => false
  { now := now0
    timeLeft := initial.map (fun v => v / 1000)
    timeoutAt := if armed then initial.map (fun v => now0 + v) else none
    intervalNext := if armed then some (now0 + 1000) else none
    endMs := endMs
    timeUpCalls := 0
    timeUpAt := none
    ticks := [] }

/-- The `setTimeout` callback firing at time `tf`: sets the display to 0,
clears the interval, and invokes `onTimeUp`. -/
def fireTimeout (s : TimerState) (tf : Int) : TimerState :=
  { s with
    now := tf
    timeLeft := some 0
    timeoutAt := none
    intervalNext := none
    timeUpCalls := s.timeUpCalls + 1
    timeUpAt := some tf }

/-- The `setInterval` callback firing at time `nf`: recomputes the display
from the fixed deadline and re-arms itself 1000 ms later. -/
def fireInterval (s : TimerState) (nf : Int) : TimerState :=
  { s with
    now := nf
    timeLeft := (calculateTimeLeft s.endMs nf).map (fun v => v / 1000)
    intervalNext := some (nf + 1000)
    ticks := s.ticks ++ [nf] }

/-- One scheduler step: fire the earliest pending callback; on a tie the
one-shot timeout wins (it was registered first).  With nothing pending the
state is unchanged. -/
def stepT (s : TimerState) : TimerState :=
  match s.timeoutAt, s.intervalNext with
  | none, none => s
  | some tf, none => fireTimeout s tf
  | none, some nf => fireInterval s nf
  | some tf, some nf => if tf ≤ nf then fireTimeout s tf else fireInterval s nf

/-- Run the scheduler for `n` steps. -/
def runT (s : TimerState) : Nat → TimerState
  | 0 => s
  | n + 1 => runT (stepT s) n

/-! ## The `QuizRunner` component (`src/unnamed/part_000`) -/

/-- The `/quizzes/:id/start` response fields significant to the core.
`start_time` is kept as the raw string the server sent (`""` when the
field was missing, matching `start_time || ''`). -/
structure StartResp where
  attempt_id : JsVal
  start_time : String
  time_limit_minutes : JsVal
deriving DecidableEq, Repr

/-- One element of the quiz's `questions` array: only the `id` field is
significant to the core. -/
structure QField where
  id : JsVal
deriving DecidableEq, Repr

/-- The `/quizzes/:id` response fields significant to the core.
`dataOk` is the truthiness of `quizResponse?.data`; `questions = none`
models a non-array `questions` field; a `none` element models a falsy
entry of the array (the `q && q.id` guard). -/
structure QuizResp where
  dataOk : Bool
  time_limit_minutes : JsVal
  questions : Option (List (Option QField))
deriving DecidableEq, Repr

/-- Expression `startTimeRaw.endsWith(Z) ? startTimeRaw : startTimeRaw + Z`. -/
def withZ (raw : String) : String := if raw.endsWith "Z" then raw else raw ++ "Z"

/-- Parsing of the start time: first with the `Z` suffix appended, then
the fallback parse of the raw string when that yields an invalid date. -/
def parseStartTime (dparse : String → Option Int) (raw : String) : Option Int :=
  match dparse (withZ raw) with
  | some t => some t
  | none => dparse raw

/-- JS-object assignment `o[k] = v`: updates the value in place when the
key exists, appends otherwise. -/
def objSet (o : List (String × Option Int)) (k : String) (v : Option Int) :
    List (String × Option Int) :=
  if o.any (fun p => p.1 = k) then o.map (fun p => if p.1 = k then (k, v) else p)
  else o ++ [(k, v)]

/-- JS-object read `o[k]`: `none` models `undefined` (key absent);
`some none` models a stored `null`. -/
def objGet (o : List (String × Option Int)) (k : String) : Option (Option Int) :=
  match o.find? (fun p => p.1 = k) with
  | some p => some p.2
  | none => none

/-- The `for (const q of questions)` loop building `initialAnswers`:
keys with a truthy `q && q.id` are set to `null`. -/
def initAnswersGo : List (String × Option Int) → List (Option QField) →
    List (String × Option Int)
  | acc, [] => acc
  | acc, none :: rest => initAnswersGo acc rest
  | acc, some qf :: rest =>
      if qf.id.truthy then initAnswersGo (objSet acc (jsKey qf.id) none) rest
      else initAnswersGo acc rest

/-- Object `initialAnswers`: one `null` entry per question with a truthy id; a
non-array `questions` field gives the empty object. -/
def initAnswers (quiz : QuizResp) : List (String × Option Int) :=
  match quiz.questions with
  | some qs => initAnswersGo [] qs
  | none => []

/-- Effective time limit of the attempt:
`startResponse.data.time_limit_minutes ?? quizResponse.data.time_limit_minutes`. -/
def effTlm (resp1 : StartResp) (quiz : QuizResp) : JsVal :=
  if resp1.time_limit_minutes.isNullish then quiz.time_limit_minutes
  else resp1.time_limit_minutes

/-- The component state resulting from one `startQuiz` call (values of
`attemptId`, `endTime`, `answers`, `error` after the async function
settles, plus the number of `/start` POSTs issued). -/
structure StartResult where
  startCalls : Nat
  attemptId : JsVal
  endTime : Option Int
  answers : List (String × Option Int)
  error : String
deriving DecidableEq, Repr

/-- The generic failure message installed by the `catch` block (thrown
local `Error`s carry no `response`, so the `||` fallback is taken). -/
def startFailMsg : String := "Failed to start quiz. Please try again."

/-- Function `startQuiz`: acquires the attempt, derives the deadline
`startTime + max(1, Number(timeLimit)) * 60000`, retries the start once
when the remaining time is non-positive, and initializes the answers
object.  `endTime = none` together with `error = startFailMsg` models the
`catch` path (including the `RangeError` thrown by
`new Date(NaN).toISOString()`).  `resp2` is the response the server would
give to the retry POST; `now1` is the `Date.now()` read.  On the retry
path the source recomputes `remainingMs` from a second `Date.now()` read
but never reads that value again, so it does not appear in the result. -/
def startQuiz (dparse : String → Option Int) (resp1 : StartResp) (quiz : QuizResp)
    (resp2 : StartResp) (now1 : Int) : StartResult :=
  if resp1.attempt_id.truthy = false then
    { startCalls := 1, attemptId := .nullv, endTime := none, answers := [],
      error := startFailMsg }
  else if quiz.dataOk = false then
    { startCalls := 1, attemptId := resp1.attempt_id, endTime := none, answers := [],
      error := startFailMsg }
  else
    let parsedStart := parseStartTime dparse resp1.start_time
    let tlm := effTlm resp1 quiz
    let timeLimitMs := oMulK (jsMax1 (jsOr tlm (.num 0)).toNumber) 60000
    let remainingMs := oSub (oAdd parsedStart timeLimitMs) (some now1)
    if jsLe0 remainingMs then
      let parsedStart2 := parseStartTime dparse resp2.start_time
      let tlm2 := oMulK (jsMax1 (jsOr resp2.time_limit_minutes (jsOr tlm (.num 1))).toNumber) 60000
      match oAdd parsedStart2 tlm2 with
      | none =>
          { startCalls := 2, attemptId := resp2.attempt_id, endTime := none,
            answers := [], error := startFailMsg }
      | some e =>
          { startCalls := 2, attemptId := resp2.attempt_id, endTime := some e,
            answers := initAnswers quiz, error := "" }
    else
      match oAdd parsedStart timeLimitMs with
      | none =>
          { startCalls := 1, attemptId := resp1.attempt_id, endTime := none,
            answers := [], error := startFailMsg }
      | some e =>
          { startCalls := 1, attemptId := resp1.attempt_id, endTime := some e,
            answers := initAnswers quiz, error := "" }

/-! ## Submission (`handleSubmit` / `handleTimeUp`) -/

/-- What triggered a submit call. -/
inductive Trigger where
  | manual
  | timeout
deriving DecidableEq, Repr

/-- The component state read and written by the two submit handlers. -/
structure RunnerSubState where
  quizQuestions : List QField
  attemptId : JsVal
  answers : List (String × Option Int)
  submitting : Bool
  error : String
deriving DecidableEq, Repr

/-- Body of an `api.post(/quizzes/:id/submit, ...)` network call. -/
structure Payload where
  attempt_id : JsVal
  answers : List (String × Option Int)
deriving DecidableEq, Repr

/-- The validation message of the manual path, reporting the count of
unanswered questions. -/
def incompleteMsg (n : Nat) : String :=
  "Please answer all questions before submitting. " ++ toString n ++
    " question(s) remaining."

/-- Synchronous prefix of `handleSubmit` (manual trigger), up to and
including issuing the network call: blocks with a count when any question
of the quiz has a `null` answer, returns unchanged when the confirm
dialog is declined, otherwise sets the in-flight flag, clears the error
and posts every entry of `answers`. -/
def handleSubmit (confirmOk : Bool) (s : RunnerSubState) :
    RunnerSubState × List Payload :=
  let unanswered :=
    s.quizQuestions.filter (fun q => objGet s.answers (jsKey q.id) == some none)
  if 0 < unanswered.length then
    ({ s with error := incompleteMsg unanswered.length }, [])
  else if confirmOk = false then (s, [])
  else
    ({ s with submitting := true, error := "" },
      [{ attempt_id := s.attemptId, answers := s.answers }])

/-- Synchronous prefix of `handleTimeUp` (timeout trigger): a no-op when a
submission is already in flight, otherwise sets the in-flight flag, clears
the error and posts exactly the entries of `answers` whose value is not
`null`. -/
def handleTimeUp (s : RunnerSubState) : RunnerSubState × List Payload :=
  if s.submitting then (s, [])
  else
    ({ s with submitting := true, error := "" },
      [{ attempt_id := s.attemptId,
         answers := s.answers.filter (fun p => p.2.isSome) }])

/-- One submit call dispatched on its trigger. -/
def submitCall (t : Trigger) (confirmOk : Bool) (s : RunnerSubState) :
    RunnerSubState × List Payload :=
  match t with
  | .manual => handleSubmit confirmOk s
  | .timeout => handleTimeUp s

/-! ## Specification predicates -/

/-- Invariant of a running timer armed for deadline `E`: every periodic
update so far happened strictly before `E`, and either the expiry timeout
is still pending (and `onTimeUp` has not run) or `onTimeUp` has run
exactly once and both timers are cleared. -/
def TInv (E : Int) (s : TimerState) : Prop :=
  (∀ t ∈ s.ticks, t < E) ∧
  ((s.timeUpCalls = 0 ∧ s.timeUpAt = none ∧ s.timeoutAt = some E) ∨
   (s.timeUpCalls = 1 ∧ s.timeUpAt = some E ∧ s.timeoutAt = none ∧
     s.intervalNext = none))

/-- Behaviour of a timer started at `now0` for a future deadline `E`: the
expiry timeout is armed once at start, deadline-relative, for time `E`;
along every run `onTimeUp` fires at most once, every periodic update is
strictly before `E`, and once `onTimeUp` has fired it fired exactly at
`E` with both timers cleared; and some run fires it. -/
def timerFutureOnce (now0 E : Int) : Prop :=
  (timerStart (some E) now0).timeoutAt = some E ∧
  (∀ n, (runT (timerStart (some E) now0) n).timeUpCalls ≤ 1 ∧
    (∀ t ∈ (runT (timerStart (some E) now0) n).ticks, t < E) ∧
    ((runT (timerStart (some E) now0) n).timeUpCalls = 1 →
      (runT (timerStart (some E) now0) n).timeUpAt = some E ∧
      (runT (timerStart (some E) now0) n).timeoutAt = none ∧
      (runT (timerStart (some E) now0) n).intervalNext = none)) ∧
  (∃ n, (runT (timerStart (some E) now0) n).timeUpCalls = 1)

/-- Outcome of an acquisition whose two start responses are both already
expired: exactly one retry happened (two start calls), no error message is
installed, the deadline is the (stale) one of the second response, and a
timer started on it arms nothing and never fires `onTimeUp`. -/
def doubleExpiredOutcome (r : StartResult) (e2 nowT : Int) : Prop :=
  r.startCalls = 2 ∧ r.error = "" ∧ r.endTime = some e2 ∧
  (timerStart r.endTime nowT).timeoutAt = none ∧
  (timerStart r.endTime nowT).intervalNext = none ∧
  ∀ n, (runT (timerStart r.endTime nowT) n).timeUpCalls = 0

/-- Deadline arithmetic of `startQuiz` for well-formed numeric limits: on
the fresh path the deadline is exactly `t1 + m1 * 60000` after one start
call; on the stale-retry path it is exactly `t2 + m2 * 60000` after two;
and however many scheduler steps the timer runs, the deadline it works
from never changes. -/
def deadlineExact (r : StartResult) (t1 m1 t2 m2 now1 nowT : Int) : Prop :=
  (0 < t1 + m1 * 60000 - now1 →
    r.endTime = some (t1 + m1 * 60000) ∧ r.startCalls = 1) ∧
  (t1 + m1 * 60000 - now1 ≤ 0 →
    r.endTime = some (t2 + m2 * 60000) ∧ r.startCalls = 2) ∧
  (∀ n, (runT (timerStart r.endTime nowT) n).endMs = r.endTime)

/-- Clamping behaviour of the effective time limit `tl`: when
`Number(tl || 0)` is a number `≤ 1` the deadline is exactly one minute
after the start time; when it is `NaN` the acquisition fails with the
generic error and no deadline at all. -/
def clampOutcome (r : StartResult) (tl : JsVal) (t1 now1 : Int) : Prop :=
  (∀ v, (jsOr tl (JsVal.num 0)).toNumber = some v → v ≤ 1 →
    0 < t1 + 60000 - now1 → r.endTime = some (t1 + 60000) ∧ r.error = "") ∧
  ((jsOr tl (JsVal.num 0)).toNumber = none →
    r.endTime = none ∧ r.error = startFailMsg)

/-- Correctness of the initial answers object for a quiz whose questions
field is the array `qs`: every entry is `null`; every entry's key is the
key of some question of `qs` with a truthy id; every question of `qs` with
a truthy id has an entry (which is `null`); keys are not duplicated; and a
non-array questions field gives the empty object. -/
def initAnswersCorrect (quiz : QuizResp) (qs : List (Option QField)) : Prop :=
  (∀ p ∈ initAnswers quiz, p.2 = none) ∧
  (∀ p ∈ initAnswers quiz,
    ∃ qf, some qf ∈ qs ∧ qf.id.truthy = true ∧ jsKey qf.id = p.1) ∧
  (∀ qf, some qf ∈ qs → qf.id.truthy = true →
    objGet (initAnswers quiz) (jsKey qf.id) = some none) ∧
  ((initAnswers quiz).map Prod.fst).Nodup ∧
  (∀ dOk tl, initAnswers ⟨dOk, tl, none⟩ = [])

/-! ## Scheduler lemmas -/

theorem runT_succ (s : TimerState) (n : Nat) : runT s (n + 1) = runT (stepT s) n := rfl

theorem stepT_of_none (s : TimerState) (h1 : s.timeoutAt = none)
    (h2 : s.intervalNext = none) : stepT s = s := by
  unfold stepT
  rw [h1, h2]

theorem runT_of_none (s : TimerState) (h1 : s.timeoutAt = none)
    (h2 : s.intervalNext = none) : ∀ n, runT s n = s := by
  intro n
  induction n with
  | zero => rfl
  | succ n ih => rw [runT_succ, stepT_of_none s h1 h2, ih]

theorem stepT_endMs (s : TimerState) : (stepT s).endMs = s.endMs := by
  unfold stepT
  cases h1 : s.timeoutAt <;> cases h2 : s.intervalNext <;>
    simp [fireTimeout, fireInterval]
  split <;> simp [fireTimeout, fireInterval]

theorem runT_endMs (s : TimerState) (n : Nat) : (runT s n).endMs = s.endMs := by
  induction n generalizing s with
  | zero => rfl
  | succ n ih => rw [runT_succ, ih, stepT_endMs]

theorem timerStart_endMs (e : Option Int) (now0 : Int) :
    (timerStart e now0).endMs = e := rfl

/-- Starting the timer with a deadline not in the future arms nothing and
initializes the display to zero seconds. -/
theorem timerStart_past (E now0 : Int) (h : E ≤ now0) :
    timerStart (some E) now0 =
      { now := now0, timeLeft := some 0, timeoutAt := none,
        intervalNext := none, endMs := some E, timeUpCalls := 0,
        timeUpAt := none, ticks := [] } := by
  have hmax : max 0 (E - now0) = 0 := max_eq_left (by omega)
  have harm : ¬ (0 : Int) < 0 := by omega
  simp [timerStart, calculateTimeLeft, hmax, harm]

theorem stepT_timeout_only (s : TimerState) (tf : Int) (h1 : s.timeoutAt = some tf)
    (h2 : s.intervalNext = none) : stepT s = fireTimeout s tf := by
  unfold stepT
  rw [h1, h2]

theorem stepT_interval_only (s : TimerState) (nf : Int) (h1 : s.timeoutAt = none)
    (h2 : s.intervalNext = some nf) : stepT s = fireInterval s nf := by
  unfold stepT
  rw [h1, h2]

theorem stepT_both_timeout (s : TimerState) (tf nf : Int) (h1 : s.timeoutAt = some tf)
    (h2 : s.intervalNext = some nf) (hle : tf ≤ nf) : stepT s = fireTimeout s tf := by
  unfold stepT
  rw [h1, h2]
  exact if_pos hle

theorem stepT_both_interval (s : TimerState) (tf nf : Int) (h1 : s.timeoutAt = some tf)
    (h2 : s.intervalNext = some nf) (hgt : ¬ tf ≤ nf) : stepT s = fireInterval s nf := by
  unfold stepT
  rw [h1, h2]
  exact if_neg hgt

theorem TInv_step (E : Int) (s : TimerState) (h : TInv E s) : TInv E (stepT s) := by
  obtain ⟨hticks, hph⟩ := h
  rcases hph with ⟨hc, ha, ht⟩ | ⟨hc, ha, ht, hi⟩
  · cases hi : s.intervalNext with
    | none =>
        rw [stepT_timeout_only s E ht hi]
        exact ⟨by simpa [fireTimeout] using hticks,
          Or.inr (by simp [fireTimeout, hc])⟩
    | some nf =>
        by_cases hle : E ≤ nf
        · rw [stepT_both_timeout s E nf ht hi hle]
          exact ⟨by simpa [fireTimeout] using hticks,
            Or.inr (by simp [fireTimeout, hc])⟩
        · rw [stepT_both_interval s E nf ht hi hle]
          refine ⟨?_, Or.inl (by simp [fireInterval, hc, ha, ht])⟩
          intro t htm
          simp only [fireInterval, List.mem_append, List.mem_singleton] at htm
          rcases htm with htm | rfl
          · exact hticks t htm
          · omega
  · rw [stepT_of_none s ht hi]
    exact ⟨hticks, Or.inr ⟨hc, ha, ht, hi⟩⟩

theorem TInv_runT (E : Int) (s : TimerState) (h : TInv E s) :
    ∀ n, TInv E (runT s n) := by
  intro n
  induction n generalizing s with
  | zero => exact h
  | succ n ih => rw [runT_succ]; exact ih _ (TInv_step E s h)

/-- From a state whose expiry timeout is armed for `E`, some finite run
fires `onTimeUp` (the display interval only postpones it finitely often). -/
theorem timer_fires_aux (E : Int) :
    ∀ (m : Nat) (s : TimerState), s.timeoutAt = some E →
      (s.intervalNext = none ∨ ∃ nf, s.intervalNext = some nf ∧ E ≤ nf + 1000 * m) →
      ∃ n, (runT s n).timeUpCalls = s.timeUpCalls + 1 := by
  intro m
  induction m with
  | zero =>
      intro s hT hI
      refine ⟨1, ?_⟩
      rw [runT_succ]
      rcases hI with hI | ⟨nf, hI, hle⟩
      · rw [stepT_timeout_only s E hT hI]; simp [runT, fireTimeout]
      · have hle2 : E ≤ nf := by omega
        rw [stepT_both_timeout s E nf hT hI hle2]; simp [runT, fireTimeout]
  | succ m ih =>
      intro s hT hI
      rcases hI with hI | ⟨nf, hI, hle⟩
      · refine ⟨1, ?_⟩
        rw [runT_succ, stepT_timeout_only s E hT hI]
        simp [runT, fireTimeout]
      · by_cases hE : E ≤ nf
        · refine ⟨1, ?_⟩
          rw [runT_succ, stepT_both_timeout s E nf hT hI hE]
          simp [runT, fireTimeout]
        · obtain ⟨n, hn⟩ := ih (fireInterval s nf) (by simp [fireInterval, hT])
            (Or.inr ⟨nf + 1000, by simp [fireInterval], by omega⟩)
          refine ⟨n + 1, ?_⟩
          rw [runT_succ, stepT_both_interval s E nf hT hI hE, hn]
          simp [fireInterval]

/-- Starting the timer with a strictly future deadline arms the one-shot
timeout exactly at the deadline and the display interval one second out. -/
theorem timerStart_future (E now0 : Int) (h : now0 < E) :
    timerStart (some E) now0 =
      { now := now0, timeLeft := some ((E - now0) / 1000), timeoutAt := some E,
        intervalNext := some (now0 + 1000), endMs := some E, timeUpCalls := 0,
        timeUpAt := none, ticks := [] } := by
  have hmax : max 0 (E - now0) = E - now0 := max_eq_right (by omega)
  have harm : (0 : Int) < E - now0 := by omega
  simp [timerStart, calculateTimeLeft, hmax, harm]

/-! ## Timer claims -/

/-- C5: for every deadline `E` strictly in the future at start time
`now0`, the timer arms a single deadline-relative timeout at start (for
time `E` exactly); along every scheduler run the expiry callback fires at
most once, every periodic display update happens strictly before `E`, and
once the expiry callback has fired it fired exactly at `E` (hence no
earlier than the deadline) with both the expiry timer and the display
cadence cancelled, so no periodic update occurs after expiry; and the
expiry callback does fire on some finite run. -/
theorem timer_future_exactly_once (now0 E : Int) (h : now0 < E) :
    timerFutureOnce now0 E := by
  have hstart := timerStart_future E now0 h
  have hinv0 : TInv E (timerStart (some E) now0) := by
    rw [hstart]
    exact ⟨by simp, Or.inl (by simp)⟩
  unfold timerFutureOnce
  refine ⟨by rw [hstart], ?_, ?_⟩
  · intro n
    obtain ⟨hticks, hph⟩ := TInv_runT E _ hinv0 n
    rcases hph with ⟨hc, ha, ht⟩ | ⟨hc, ha, ht, hi⟩
    · exact ⟨by omega, hticks, fun h1 => absurd h1 (by omega)⟩
    · exact ⟨by omega, hticks, fun _ => ⟨ha, ht, hi⟩⟩
  · have hT : (timerStart (some E) now0).timeoutAt = some E := by rw [hstart]
    have hI : (timerStart (some E) now0).intervalNext = some (now0 + 1000) := by
      rw [hstart]
    have hc0 : (timerStart (some E) now0).timeUpCalls = 0 := by rw [hstart]
    have hbound : E ≤ now0 + 1000 + 1000 * ((E - now0).toNat : Int) := by
      have hcast : ((E - now0).toNat : Int) = E - now0 := Int.toNat_of_nonneg (by omega)
      omega
    obtain ⟨n, hn⟩ := timer_fires_aux E (E - now0).toNat (timerStart (some E) now0)
      hT (Or.inr ⟨now0 + 1000, hI, hbound⟩)
    exact ⟨n, by rw [hn, hc0]⟩

/-- Witness for C5: a concrete future deadline (1500 ms, started at 0). -/
theorem timer_future_exactly_once_witness :
    (0 : Int) < 1500 ∧ timerFutureOnce 0 1500 :=
  ⟨by decide, timer_future_exactly_once 0 1500 (by decide)⟩

/-- C6 counterexample: for the concrete past deadline 500 started at time
1000, the code arms neither the expiry timeout nor the interval, and after
ten scheduler ticks the expiry callback has still never fired — the claim
that expiry fires on the next scheduling tick is false. -/
theorem timer_past_counterexample :
    (timerStart (some 500) 1000).timeoutAt = none ∧
    (timerStart (some 500) 1000).intervalNext = none ∧
    (runT (timerStart (some 500) 1000) 10).timeUpCalls = 0 := by decide

/-- C6 amended: for every deadline already in the past at start time, the
timer arms nothing at all — no periodic display update occurs, and the
expiry callback never fires (neither synchronously nor on any later
scheduling tick). -/
theorem timer_past_never_fires (E now0 : Int) (h : E ≤ now0) :
    (timerStart (some E) now0).timeoutAt = none ∧
    (timerStart (some E) now0).intervalNext = none ∧
    (timerStart (some E) now0).ticks = [] ∧
    ∀ n, runT (timerStart (some E) now0) n = timerStart (some E) now0 ∧
      (runT (timerStart (some E) now0) n).timeUpCalls = 0 := by
  have hp := timerStart_past E now0 h
  refine ⟨by rw [hp], by rw [hp], by rw [hp], ?_⟩
  intro n
  have hfix := runT_of_none (timerStart (some E) now0) (by rw [hp]) (by rw [hp]) n
  exact ⟨hfix, by rw [hfix, hp]⟩

/-- Witness for C6 amended: deadline 0, started at time 5. -/
theorem timer_past_never_fires_witness :
    (0 : Int) ≤ 5 ∧
    ((timerStart (some 0) 5).timeoutAt = none ∧
      (timerStart (some 0) 5).intervalNext = none ∧
      (timerStart (some 0) 5).ticks = [] ∧
      ∀ n, runT (timerStart (some 0) 5) n = timerStart (some 0) 5 ∧
        (runT (timerStart (some 0) 5) n).timeUpCalls = 0) :=
  ⟨by decide, timer_past_never_fires 0 5 (by decide)⟩

/-- C7 counterexample: for a concrete unparseable deadline (parse result
`none`, at start time 1000), `start` completes normally — it produces an
ordinary state with no error indication whatsoever, arms neither timer,
and the expiry callback never fires; the deadline is thus treated exactly
like an already-expired one (except that the display holds `NaN`), not
rejected synchronously at `start` as the claim states. -/
theorem timer_unparseable_counterexample :
    timerStart none 1000 =
      { now := 1000, timeLeft := none, timeoutAt := none, intervalNext := none,
        endMs := none, timeUpCalls := 0, timeUpAt := none, ticks := [] } ∧
    (runT (timerStart none 1000) 10).timeUpCalls = 0 := by decide

/-- C7 amended: an unparseable deadline is not rejected at `start`; the
computation completes silently, the display state becomes `NaN`, neither
the expiry timeout nor the display interval is armed, and the expiry
callback never fires — behaviourally identical to an already-expired
deadline except for the `NaN` display, so the caller cannot distinguish
bad input from running out of time. -/
theorem timer_unparseable_silent (now0 : Int) (n : Nat) :
    (timerStart none now0).timeoutAt = none ∧
    (timerStart none now0).intervalNext = none ∧
    (timerStart none now0).timeLeft = none ∧
    runT (timerStart none now0) n = timerStart none now0 ∧
    (runT (timerStart none now0) n).timeUpCalls = 0 := by
  have hs : timerStart none now0 =
      { now := now0, timeLeft := none, timeoutAt := none, intervalNext := none,
        endMs := none, timeUpCalls := 0, timeUpAt := none, ticks := [] } := by
    simp [timerStart, calculateTimeLeft]
  have hfix := runT_of_none (timerStart none now0) (by rw [hs]) (by rw [hs]) n
  exact ⟨by rw [hs], by rw [hs], by rw [hs], hfix, by rw [hfix, hs]⟩

/-! ## Submission claims -/

/-- A one-question state with every question answered, the confirm dialog
accepted and no submission in flight. -/
def manualState : RunnerSubState :=
  { quizQuestions := [{ id := JsVal.str "q1" }], attemptId := JsVal.num 7,
    answers := [("q1", some 0)], submitting := false, error := "" }

/-- C1 counterexample: two manual-trigger submit calls in immediate
succession, with the in-flight flag initially clear and all questions
answered, issue two network submit calls — the manual path never consults
the in-flight flag, so the second call is not a no-op as claimed. -/
theorem submit_double_manual_counterexample :
    (submitCall .manual true manualState).2.length +
      (submitCall .manual true (submitCall .manual true manualState).1).2.length = 2 := by
  decide

/-- C1 amended: two submit calls in immediate succession result in exactly
one network submit call when the second call is timeout-triggered (the
timeout path observes the in-flight flag and is a no-op, and a blocked or
cancelled first manual call leaves the flag clear so the timeout call
still submits); a manual-triggered second call does not consult the flag
and can issue a second network call. -/
theorem submit_second_timeout_exactly_once (s : RunnerSubState) (t : Trigger)
    (confirmOk : Bool) (h : s.submitting = false) :
    (submitCall t confirmOk s).2.length +
      (submitCall .timeout true (submitCall t confirmOk s).1).2.length = 1 := by
  cases t with
  | timeout => simp [submitCall, handleTimeUp, h]
  | manual =>
      simp only [submitCall, handleSubmit]
      by_cases h1 : 0 < (s.quizQuestions.filter
          (fun q => objGet s.answers (jsKey q.id) == some none)).length
      · rw [if_pos h1]
        simp [handleTimeUp, h]
      · rw [if_neg h1]
        by_cases h2 : confirmOk = false
        · rw [if_pos h2]
          simp [handleTimeUp, h]
        · rw [if_neg h2]
          simp [handleTimeUp]

/-- Witness for C1 amended: manual then timeout on a fully answered
one-question state. -/
theorem submit_second_timeout_exactly_once_witness :
    manualState.submitting = false ∧
    (submitCall .manual true manualState).2.length +
      (submitCall .timeout true (submitCall .manual true manualState).1).2.length = 1 :=
  ⟨by decide, submit_second_timeout_exactly_once manualState .manual true (by decide)⟩

/-- C3: a manual-trigger submit with at least one question of the quiz
holding a `null` answer issues no network call, changes nothing but the
error message, and that message reports exactly the number of questions
whose answer is `null`. -/
theorem handleSubmit_blocks_incomplete (s : RunnerSubState) (confirmOk : Bool)
    (h : ∃ q ∈ s.quizQuestions, objGet s.answers (jsKey q.id) = some none) :
    submitCall .manual confirmOk s =
      ({ s with error := incompleteMsg (s.quizQuestions.filter
          (fun q => objGet s.answers (jsKey q.id) == some none)).length }, []) := by
  obtain ⟨q, hq, hval⟩ := h
  have hmem : q ∈ s.quizQuestions.filter
      (fun q => objGet s.answers (jsKey q.id) == some none) :=
    List.mem_filter.mpr ⟨hq, by simp [hval]⟩
  have h1 : 0 < (s.quizQuestions.filter
      (fun q => objGet s.answers (jsKey q.id) == some none)).length :=
    List.length_pos.mpr (List.ne_nil_of_mem hmem)
  simp only [submitCall, handleSubmit]
  rw [if_pos h1]

/-- A two-question state with one question still unanswered. -/
def incompleteState : RunnerSubState :=
  { quizQuestions := [{ id := JsVal.str "a" }, { id := JsVal.str "b" }],
    attemptId := JsVal.num 3,
    answers := [("a", some 1), ("b", none)], submitting := false, error := "" }

/-- Witness for C3: one of two questions unanswered blocks the manual
submit with a count of one. -/
theorem handleSubmit_blocks_incomplete_witness :
    (∃ q ∈ incompleteState.quizQuestions,
      objGet incompleteState.answers (jsKey q.id) = some none) ∧
    submitCall .manual true incompleteState =
      ({ incompleteState with error := incompleteMsg (incompleteState.quizQuestions.filter (fun q => objGet incompleteState.answers (jsKey q.id) == some none)).length }, []) :=
  ⟨by decide, handleSubmit_blocks_incomplete incompleteState true (by decide)⟩

theorem filter_isSome_eq_nil (l : List (String × Option Int))
    (h : ∀ p ∈ l, p.2 = none) : l.filter (fun p => p.2.isSome) = [] := by
  induction l with
  | nil => rfl
  | cons p rest ih =>
      have hp : p.2 = none := h p (List.mem_cons_self p rest)
      have hrest := ih (fun q hq => h q (List.mem_cons_of_mem p hq))
      simp [List.filter_cons, hp, hrest]

/-- C4: a timeout-trigger submit with no submission in flight always
issues exactly one network call whose payload holds exactly the answer
entries with a non-`null` value (unanswered questions are omitted), and in
particular with zero answered questions the call is still issued with an
empty answer list — no incompleteness check is applied. -/
theorem handleTimeUp_submits_answered (s : RunnerSubState) (h : s.submitting = false) :
    submitCall .timeout true s =
      ({ s with submitting := true, error := "" },
        [{ attempt_id := s.attemptId,
           answers := s.answers.filter (fun p => p.2.isSome) }]) ∧
    ((∀ p ∈ s.answers, p.2 = none) → s.answers.filter (fun p => p.2.isSome) = []) := by
  constructor
  · simp [submitCall, handleTimeUp, h]
  · exact filter_isSome_eq_nil s.answers

/-- A two-question state with one answered question and no submission in
flight. -/
def timeoutState : RunnerSubState :=
  { quizQuestions := [{ id := JsVal.str "a" }, { id := JsVal.str "b" }],
    attemptId := JsVal.num 4,
    answers := [("a", none), ("b", some 2)], submitting := false, error := "" }

/-- Witness for C4: the timeout submit of a half-answered state posts the
single answered entry. -/
theorem handleTimeUp_submits_answered_witness :
    timeoutState.submitting = false ∧
    (submitCall .timeout true timeoutState =
      ({ timeoutState with submitting := true, error := "" },
        [{ attempt_id := timeoutState.attemptId,
           answers := timeoutState.answers.filter (fun p => p.2.isSome) }]) ∧
      ((∀ p ∈ timeoutState.answers, p.2 = none) →
        timeoutState.answers.filter (fun p => p.2.isSome) = [])) :=
  ⟨by decide, handleTimeUp_submits_answered timeoutState (by decide)⟩

/-! ## Acquisition claims -/

/-- C2 counterexample: with both start responses expired by 40 seconds
(parse time 0, one-minute limit, `Date.now()` at 100000), the controller
does retry once but then completes with an *empty* error message — no
`AlreadyExpired` error is surfaced; the stale deadline of the second
response is installed as if the attempt were usable. -/
theorem startQuiz_double_expired_counterexample :
    (startQuiz (fun _ => some 0)
      { attempt_id := JsVal.num 1, start_time := "S", time_limit_minutes := JsVal.num 1 }
      { dataOk := true, time_limit_minutes := JsVal.num 1, questions := some [] }
      { attempt_id := JsVal.num 2, start_time := "S", time_limit_minutes := JsVal.num 1 }
      100000).error = "" ∧
    (startQuiz (fun _ => some 0)
      { attempt_id := JsVal.num 1, start_time := "S", time_limit_minutes := JsVal.num 1 }
      { dataOk := true, time_limit_minutes := JsVal.num 1, questions := some [] }
      { attempt_id := JsVal.num 2, start_time := "S", time_limit_minutes := JsVal.num 1 }
      100000).startCalls = 2 := by
  decide

/-- C2 amended: when the first start response yields a non-positive
remaining time the controller performs exactly one retry start request;
when the retried response again yields a non-positive remaining time, the
controller surfaces no error at all (the error message stays empty and the
stale deadline is installed), does not submit, and the timer started on
that deadline arms nothing — the expiry callback never fires. -/
theorem startQuiz_double_expired (dparse : String → Option Int) (resp1 : StartResp)
    (quiz : QuizResp) (resp2 : StartResp) (now1 nowT t1 t2 v1 v2 : Int)
    (hA : resp1.attempt_id.truthy = true)
    (hQ : quiz.dataOk = true)
    (hp1 : parseStartTime dparse resp1.start_time = some t1)
    (hv1 : (jsOr (effTlm resp1 quiz) (JsVal.num 0)).toNumber = some v1)
    (hexp1 : t1 + max 1 v1 * 60000 - now1 ≤ 0)
    (hp2 : parseStartTime dparse resp2.start_time = some t2)
    (hv2 : (jsOr resp2.time_limit_minutes
      (jsOr (effTlm resp1 quiz) (JsVal.num 1))).toNumber = some v2)
    (hexp2 : t2 + max 1 v2 * 60000 ≤ nowT) :
    doubleExpiredOutcome (startQuiz dparse resp1 quiz resp2 now1)
      (t2 + max 1 v2 * 60000) nowT := by
  have hr : startQuiz dparse resp1 quiz resp2 now1 =
      { startCalls := 2, attemptId := resp2.attempt_id,
        endTime := some (t2 + max 1 v2 * 60000), answers := initAnswers quiz,
        error := "" } := by
    simp [startQuiz, hA, hQ, hp1, hv1, hp2, hv2, jsMax1, oMulK, oAdd, oSub,
      jsLe0, hexp1]
  have hend : (startQuiz dparse resp1 quiz resp2 now1).endTime =
      some (t2 + max 1 v2 * 60000) := by rw [hr]
  have hpast := timerStart_past (t2 + max 1 v2 * 60000) nowT hexp2
  unfold doubleExpiredOutcome
  refine ⟨by rw [hr], by rw [hr], hend, ?_, ?_, ?_⟩
  · rw [hend, hpast]
  · rw [hend, hpast]
  · intro n
    rw [hend]
    have hfix := runT_of_none (timerStart (some (t2 + max 1 v2 * 60000)) nowT)
      (by rw [hpast]) (by rw [hpast]) n
    rw [hfix, hpast]

/-- Witness for C2 amended: both responses parse to start time 0 with a
one-minute limit and `Date.now()` at 100000. -/
theorem startQuiz_double_expired_witness :
    ((0 : Int) + max 1 1 * 60000 - 100000 ≤ 0) ∧
    doubleExpiredOutcome
      (startQuiz (fun _ => some 0)
        { attempt_id := JsVal.num 1, start_time := "S", time_limit_minutes := JsVal.num 1 }
        { dataOk := true, time_limit_minutes := JsVal.num 1, questions := some [] }
        { attempt_id := JsVal.num 2, start_time := "S", time_limit_minutes := JsVal.num 1 }
        100000)
      ((0 : Int) + max 1 1 * 60000) 100000 :=
  ⟨by decide,
    startQuiz_double_expired (fun _ => some 0)
      { attempt_id := JsVal.num 1, start_time := "S", time_limit_minutes := JsVal.num 1 }
      { dataOk := true, time_limit_minutes := JsVal.num 1, questions := some [] }
      { attempt_id := JsVal.num 2, start_time := "S", time_limit_minutes := JsVal.num 1 }
      100000 100000 0 0 1 1 (by decide) (by decide) (by decide) (by decide)
      (by decide) (by decide) (by decide) (by decide)⟩

/-- C8: for attempt responses carrying integer limits `m1, m2 ≥ 1` and
parseable start times `t1, t2`, the deadline computed at acquisition is
exactly `startTime + timeLimitMinutes * 60000`: `t1 + m1 * 60000` on the
fresh path (one start call), `t2 + m2 * 60000` on the stale-retry path
(two start calls, recomputed only there from the new response), and the
deadline the timer works from never changes however many scheduler steps
(periodic display ticks included) are run. -/
theorem startQuiz_deadline_exact (dparse : String → Option Int) (resp1 : StartResp)
    (quiz : QuizResp) (resp2 : StartResp) (now1 nowT t1 t2 m1 m2 : Int)
    (hA : resp1.attempt_id.truthy = true)
    (hQ : quiz.dataOk = true)
    (hp1 : parseStartTime dparse resp1.start_time = some t1)
    (htl1 : resp1.time_limit_minutes = JsVal.num m1)
    (hm1 : 1 ≤ m1)
    (hp2 : parseStartTime dparse resp2.start_time = some t2)
    (htl2 : resp2.time_limit_minutes = JsVal.num m2)
    (hm2 : 1 ≤ m2) :
    deadlineExact (startQuiz dparse resp1 quiz resp2 now1) t1 m1 t2 m2 now1 nowT := by
  have hm1ne : m1 ≠ 0 := by omega
  have hm2ne : m2 ≠ 0 := by omega
  have e1 : jsMax1 (jsOr (effTlm resp1 quiz) (JsVal.num 0)).toNumber = some m1 := by
    simp [effTlm, htl1, JsVal.isNullish, jsOr, JsVal.truthy, hm1ne, JsVal.toNumber,
      jsMax1, max_eq_right hm1]
  have e2 : jsMax1 (jsOr resp2.time_limit_minutes
      (jsOr (effTlm resp1 quiz) (JsVal.num 1))).toNumber = some m2 := by
    simp [htl2, jsOr, JsVal.truthy, hm2ne, JsVal.toNumber, jsMax1, max_eq_right hm2]
  unfold deadlineExact
  refine ⟨?_, ?_, ?_⟩
  · intro hpos
    have hcond : ¬ (t1 + m1 * 60000 - now1 ≤ 0) := by omega
    have hr : startQuiz dparse resp1 quiz resp2 now1 =
        { startCalls := 1, attemptId := resp1.attempt_id,
          endTime := some (t1 + m1 * 60000), answers := initAnswers quiz,
          error := "" } := by
      simp [startQuiz, hA, hQ, hp1, e1, oMulK, oAdd, oSub, jsLe0, hcond]
    exact ⟨by rw [hr], by rw [hr]⟩
  · intro hneg
    have hr : startQuiz dparse resp1 quiz resp2 now1 =
        { startCalls := 2, attemptId := resp2.attempt_id,
          endTime := some (t2 + m2 * 60000), answers := initAnswers quiz,
          error := "" } := by
      simp [startQuiz, hA, hQ, hp1, e1, hp2, e2, oMulK, oAdd, oSub, jsLe0, hneg]
    exact ⟨by rw [hr], by rw [hr]⟩
  · intro n
    rw [runT_endMs, timerStart_endMs]

/-- Witness for C8: both responses parse to start time 0 with limits 15
and 10 minutes. -/
theorem startQuiz_deadline_exact_witness :
    (1 : Int) ≤ 15 ∧
    deadlineExact
      (startQuiz (fun _ => some 0)
        { attempt_id := JsVal.num 1, start_time := "S", time_limit_minutes := JsVal.num 15 }
        { dataOk := true, time_limit_minutes := JsVal.num 1, questions := some [] }
        { attempt_id := JsVal.num 2, start_time := "S", time_limit_minutes := JsVal.num 10 }
        0)
      0 15 0 10 0 0 :=
  ⟨by decide,
    startQuiz_deadline_exact (fun _ => some 0)
      { attempt_id := JsVal.num 1, start_time := "S", time_limit_minutes := JsVal.num 15 }
      { dataOk := true, time_limit_minutes := JsVal.num 1, questions := some [] }
      { attempt_id := JsVal.num 2, start_time := "S", time_limit_minutes := JsVal.num 10 }
      0 0 0 0 15 10 (by decide) (by decide) (by decide) (by decide) (by decide)
      (by decide) (by decide) (by decide)⟩

/-- C9 counterexample: a non-numeric `time_limit_minutes` (the string
`"abc"`) is not clamped to one minute: `Number("abc")` is `NaN`,
`Math.max(1, NaN)` is `NaN`, the deadline computation produces an invalid
date whose serialization throws, and the acquisition ends in the error
state with no deadline — not `startTime + 60000` as the claim states. -/
theorem startQuiz_nonnumeric_counterexample :
    (startQuiz (fun _ => some 0)
      { attempt_id := JsVal.num 1, start_time := "S",
        time_limit_minutes := JsVal.str "abc" }
      { dataOk := true, time_limit_minutes := JsVal.num 5, questions := some [] }
      { attempt_id := JsVal.num 2, start_time := "S", time_limit_minutes := JsVal.num 5 }
      0).endTime = none ∧
    (startQuiz (fun _ => some 0)
      { attempt_id := JsVal.num 1, start_time := "S",
        time_limit_minutes := JsVal.str "abc" }
      { dataOk := true, time_limit_minutes := JsVal.num 5, questions := some [] }
      { attempt_id := JsVal.num 2, start_time := "S", time_limit_minutes := JsVal.num 5 }
      0).error = startFailMsg := by
  decide

/-- C9 amended: writing `tl` for the effective time limit (the start
response's value, falling back to the quiz's value when nullish), whenever
`Number(tl || 0)` is a number `≤ 1` — which covers a missing/null value
(with a missing quiz fallback), zero, and every negative value — the
computed deadline is exactly `startTime + 60000` (clamped below at one
minute); but when `Number(tl || 0)` is `NaN` (a non-numeric value) the
deadline is not clamped: the acquisition fails with the generic error and
no deadline at all. -/
theorem startQuiz_clamps_low_limits (dparse : String → Option Int) (resp1 : StartResp)
    (quiz : QuizResp) (resp2 : StartResp) (now1 t1 : Int)
    (hA : resp1.attempt_id.truthy = true)
    (hQ : quiz.dataOk = true)
    (hp1 : parseStartTime dparse resp1.start_time = some t1) :
    clampOutcome (startQuiz dparse resp1 quiz resp2 now1) (effTlm resp1 quiz) t1 now1 := by
  unfold clampOutcome
  constructor
  · intro v hv hvle hpos
    have hmax : max 1 v = 1 := max_eq_left hvle
    have hcond : ¬ (t1 + 60000 - now1 ≤ 0) := by omega
    have hr : startQuiz dparse resp1 quiz resp2 now1 =
        { startCalls := 1, attemptId := resp1.attempt_id,
          endTime := some (t1 + 60000), answers := initAnswers quiz,
          error := "" } := by
      simp [startQuiz, hA, hQ, hp1, hv, jsMax1, hmax, oMulK, oAdd, oSub, jsLe0, hcond]
    exact ⟨by rw [hr], by rw [hr]⟩
  · intro hvnan
    have hr : startQuiz dparse resp1 quiz resp2 now1 =
        { startCalls := 1, attemptId := resp1.attempt_id, endTime := none,
          answers := [], error := startFailMsg } := by
      simp [startQuiz, hA, hQ, hp1, hvnan, jsMax1, oMulK, oAdd, oSub, jsLe0]
    exact ⟨by rw [hr], by rw [hr]⟩

/-- Witness for C9 amended: a zero time limit in the start response (the
quiz value being irrelevant since zero is not nullish) clamps to one
minute. -/
theorem startQuiz_clamps_low_limits_witness :
    parseStartTime (fun _ => some 0) "S" = some 0 ∧
    clampOutcome
      (startQuiz (fun _ => some 0)
        { attempt_id := JsVal.num 1, start_time := "S", time_limit_minutes := JsVal.num 0 }
        { dataOk := true, time_limit_minutes := JsVal.undef, questions := some [] }
        { attempt_id := JsVal.num 2, start_time := "S", time_limit_minutes := JsVal.num 1 }
        0)
      (effTlm
        { attempt_id := JsVal.num 1, start_time := "S", time_limit_minutes := JsVal.num 0 }
        { dataOk := true, time_limit_minutes := JsVal.undef, questions := some [] })
      0 0 :=
  ⟨by decide,
    startQuiz_clamps_low_limits (fun _ => some 0)
      { attempt_id := JsVal.num 1, start_time := "S", time_limit_minutes := JsVal.num 0 }
      { dataOk := true, time_limit_minutes := JsVal.undef, questions := some [] }
      { attempt_id := JsVal.num 2, start_time := "S", time_limit_minutes := JsVal.num 1 }
      0 0 (by decide) (by decide) (by decide)⟩

/-! ## Answers-object lemmas -/

theorem objGet_cons (p : String × Option Int) (o : List (String × Option Int))
    (k : String) : objGet (p :: o) k = if p.1 = k then some p.2 else objGet o k := by
  by_cases h : p.1 = k
  · simp [objGet, List.find?, h]
  · simp [objGet, List.find?, h]

theorem objGet_map_ne (o : List (String × Option Int)) (k k2 : String)
    (v : Option Int) (hk : k ≠ k2) :
    objGet (o.map (fun p => if p.1 = k2 then (k2, v) else p)) k = objGet o k := by
  induction o with
  | nil => rfl
  | cons p rest ih =>
      by_cases hp : p.1 = k2
      · have h1 : k2 ≠ k := fun h => hk h.symm
        have h2 : p.1 ≠ k := hp ▸ h1
        simp [objGet_cons, hp, h1, h2, ih]
      · simp [objGet_cons, hp, ih]

theorem objGet_map_self (o : List (String × Option Int)) (k2 : String)
    (v : Option Int) (hany : o.any (fun p => p.1 = k2) = true) :
    objGet (o.map (fun p => if p.1 = k2 then (k2, v) else p)) k2 = some v := by
  induction o with
  | nil => simp at hany
  | cons p rest ih =>
      by_cases hp : p.1 = k2
      · simp [objGet_cons, hp]
      · have hrest : rest.any (fun p => p.1 = k2) = true := by
          simpa [List.any_cons, hp] using hany
        simp [objGet_cons, hp, ih hrest]

theorem objGet_append_ne (o : List (String × Option Int)) (k k2 : String)
    (v : Option Int) (hk : k ≠ k2) : objGet (o ++ [(k2, v)]) k = objGet o k := by
  induction o with
  | nil =>
      have h1 : k2 ≠ k := fun h => hk h.symm
      simp [objGet_cons, h1, objGet]
  | cons p rest ih =>
      by_cases hp : p.1 = k <;> simp [objGet_cons, hp, ih]

theorem objGet_append_self (o : List (String × Option Int)) (k2 : String)
    (v : Option Int) (hany : o.any (fun p => p.1 = k2) = false) :
    objGet (o ++ [(k2, v)]) k2 = some v := by
  induction o with
  | nil => simp [objGet_cons]
  | cons p rest ih =>
      have h1 : ¬ p.1 = k2 := by
        intro hc
        simp [List.any_cons, hc] at hany
      have hrest : rest.any (fun p => p.1 = k2) = false := by
        simpa [List.any_cons, h1] using hany
      simp [objGet_cons, h1, ih hrest]

theorem objGet_objSet (o : List (String × Option Int)) (k k2 : String)
    (v : Option Int) :
    objGet (objSet o k2 v) k = if k = k2 then some v else objGet o k := by
  unfold objSet
  by_cases hany : o.any (fun p => p.1 = k2) = true
  · rw [if_pos hany]
    by_cases hk : k = k2
    · subst hk
      rw [if_pos rfl, objGet_map_self o k v hany]
    · rw [if_neg hk, objGet_map_ne o k k2 v hk]
  · rw [if_neg hany]
    have hf : o.any (fun p => p.1 = k2) = false := Bool.eq_false_iff.mpr hany
    by_cases hk : k = k2
    · subst hk
      rw [if_pos rfl, objGet_append_self o k v hf]
    · rw [if_neg hk, objGet_append_ne o k k2 v hk]

theorem map_fst_update (o : List (String × Option Int)) (k : String) (v : Option Int) :
    (o.map (fun p => if p.1 = k then (k, v) else p)).map Prod.fst = o.map Prod.fst := by
  induction o with
  | nil => rfl
  | cons p rest ih =>
      by_cases hp : p.1 = k
      · simp [hp, ih]
      · simp [hp, ih]

theorem objSet_keys (o : List (String × Option Int)) (k : String) (v : Option Int) :
    (objSet o k v).map Prod.fst =
      if o.any (fun p => p.1 = k) then o.map Prod.fst else o.map Prod.fst ++ [k] := by
  unfold objSet
  by_cases hany : o.any (fun p => p.1 = k) = true
  · rw [if_pos hany, if_pos hany, map_fst_update]
  · rw [if_neg hany, if_neg hany, List.map_append]
    rfl

theorem key_not_mem_of_any_eq_false (o : List (String × Option Int)) (k : String)
    (h : o.any (fun p => p.1 = k) = false) : k ∉ o.map Prod.fst := by
  intro hk
  obtain ⟨p, hp, hpk⟩ := List.mem_map.mp hk
  have htrue : o.any (fun p => p.1 = k) = true :=
    List.any_eq_true.mpr ⟨p, hp, by simp [hpk]⟩
  rw [h] at htrue
  cases htrue

theorem objSet_nodup (o : List (String × Option Int)) (k : String) (v : Option Int)
    (h : (o.map Prod.fst).Nodup) : ((objSet o k v).map Prod.fst).Nodup := by
  rw [objSet_keys]
  by_cases hany : o.any (fun p => p.1 = k) = true
  · rw [if_pos hany]
    exact h
  · rw [if_neg hany]
    have hf : o.any (fun p => p.1 = k) = false := Bool.eq_false_iff.mpr hany
    have hnm := key_not_mem_of_any_eq_false o k hf
    simp [List.nodup_append, h, hnm]

theorem objSet_values_none (o : List (String × Option Int)) (k : String)
    (h : ∀ p ∈ o, p.2 = none) : ∀ p ∈ objSet o k none, p.2 = none := by
  intro p hp
  unfold objSet at hp
  by_cases hany : o.any (fun q => q.1 = k) = true
  · rw [if_pos hany] at hp
    obtain ⟨q, hq, hfq⟩ := List.mem_map.mp hp
    by_cases hqk : q.1 = k
    · rw [if_pos hqk] at hfq
      rw [← hfq]
    · rw [if_neg hqk] at hfq
      rw [← hfq]
      exact h q hq
  · rw [if_neg hany] at hp
    rcases List.mem_append.mp hp with hp | hp
    · exact h p hp
    · simp only [List.mem_singleton] at hp
      rw [hp]

/-! ## Initial-answers lemmas -/

theorem initAnswersGo_values (qs : List (Option QField)) :
    ∀ acc, (∀ p ∈ acc, p.2 = none) → ∀ p ∈ initAnswersGo acc qs, p.2 = none := by
  induction qs with
  | nil => intro acc h; simpa [initAnswersGo] using h
  | cons q rest ih =>
      intro acc h
      cases q with
      | none => exact ih acc h
      | some qf =>
          by_cases ht : qf.id.truthy
          · have hstep : initAnswersGo acc (some qf :: rest) =
                initAnswersGo (objSet acc (jsKey qf.id) none) rest := by
              simp [initAnswersGo, ht]
            rw [hstep]
            exact ih _ (objSet_values_none acc (jsKey qf.id) h)
          · have hstep : initAnswersGo acc (some qf :: rest) = initAnswersGo acc rest := by
              simp [initAnswersGo, ht]
            rw [hstep]
            exact ih acc h

theorem initAnswersGo_keys (qs : List (Option QField)) :
    ∀ acc p, p ∈ initAnswersGo acc qs →
      p.1 ∈ acc.map Prod.fst ∨
        ∃ qf, some qf ∈ qs ∧ qf.id.truthy = true ∧ jsKey qf.id = p.1 := by
  induction qs with
  | nil =>
      intro acc p hp
      exact Or.inl (List.mem_map_of_mem Prod.fst hp)
  | cons q rest ih =>
      intro acc p hp
      cases q with
      | none =>
          rcases ih acc p hp with h | ⟨qf, hqf, ht, hk⟩
          · exact Or.inl h
          · exact Or.inr ⟨qf, List.mem_cons_of_mem _ hqf, ht, hk⟩
      | some qf0 =>
          by_cases ht0 : qf0.id.truthy
          · have hstep : initAnswersGo acc (some qf0 :: rest) =
                initAnswersGo (objSet acc (jsKey qf0.id) none) rest := by
              simp [initAnswersGo, ht0]
            rw [hstep] at hp
            rcases ih _ p hp with h | ⟨qf, hqf, ht, hk⟩
            · rw [objSet_keys] at h
              by_cases hany : acc.any (fun q => q.1 = jsKey qf0.id) = true
              · rw [if_pos hany] at h
                exact Or.inl h
              · rw [if_neg hany] at h
                rcases List.mem_append.mp h with h | h
                · exact Or.inl h
                · have hpk : p.1 = jsKey qf0.id := by simpa using h
                  exact Or.inr ⟨qf0, List.mem_cons_self _ _, ht0, hpk.symm⟩
            · exact Or.inr ⟨qf, List.mem_cons_of_mem _ hqf, ht, hk⟩
          · have hstep : initAnswersGo acc (some qf0 :: rest) = initAnswersGo acc rest := by
              simp [initAnswersGo, ht0]
            rw [hstep] at hp
            rcases ih acc p hp with h | ⟨qf, hqf, ht, hk⟩
            · exact Or.inl h
            · exact Or.inr ⟨qf, List.mem_cons_of_mem _ hqf, ht, hk⟩

theorem initAnswersGo_get_preserve (qs : List (Option QField)) :
    ∀ acc k, objGet acc k = some none →
      objGet (initAnswersGo acc qs) k = some none := by
  induction qs with
  | nil => intro acc k h; simpa [initAnswersGo] using h
  | cons q rest ih =>
      intro acc k h
      cases q with
      | none => exact ih acc k h
      | some qf =>
          by_cases ht : qf.id.truthy
          · have hstep : initAnswersGo acc (some qf :: rest) =
                initAnswersGo (objSet acc (jsKey qf.id) none) rest := by
              simp [initAnswersGo, ht]
            rw [hstep]
            apply ih
            rw [objGet_objSet]
            by_cases hk : k = jsKey qf.id
            · rw [if_pos hk]
            · rw [if_neg hk]
              exact h
          · have hstep : initAnswersGo acc (some qf :: rest) = initAnswersGo acc rest := by
              simp [initAnswersGo, ht]
            rw [hstep]
            exact ih acc k h

theorem initAnswersGo_get (qs : List (Option QField)) :
    ∀ acc qf, some qf ∈ qs → qf.id.truthy = true →
      objGet (initAnswersGo acc qs) (jsKey qf.id) = some none := by
  induction qs with
  | nil => intro acc qf h; simp at h
  | cons q rest ih =>
      intro acc qf hmem ht
      rcases List.mem_cons.mp hmem with heq | hmem2
      · subst heq
        have hstep : initAnswersGo acc (some qf :: rest) =
            initAnswersGo (objSet acc (jsKey qf.id) none) rest := by
          simp [initAnswersGo, ht]
        rw [hstep]
        apply initAnswersGo_get_preserve
        rw [objGet_objSet, if_pos rfl]
      · cases q with
        | none => exact ih acc qf hmem2 ht
        | some qf0 =>
            by_cases ht0 : qf0.id.truthy
            · have hstep : initAnswersGo acc (some qf0 :: rest) =
                  initAnswersGo (objSet acc (jsKey qf0.id) none) rest := by
                simp [initAnswersGo, ht0]
              rw [hstep]
              exact ih _ qf hmem2 ht
            · have hstep : initAnswersGo acc (some qf0 :: rest) =
                  initAnswersGo acc rest := by
                simp [initAnswersGo, ht0]
              rw [hstep]
              exact ih acc qf hmem2 ht

theorem initAnswersGo_nodup (qs : List (Option QField)) :
    ∀ acc, ((acc.map Prod.fst : List String)).Nodup →
      ((initAnswersGo acc qs).map Prod.fst).Nodup := by
  induction qs with
  | nil => intro acc h; simpa [initAnswersGo] using h
  | cons q rest ih =>
      intro acc h
      cases q with
      | none => exact ih acc h
      | some qf =>
          by_cases ht : qf.id.truthy
          · have hstep : initAnswersGo acc (some qf :: rest) =
                initAnswersGo (objSet acc (jsKey qf.id) none) rest := by
              simp [initAnswersGo, ht]
            rw [hstep]
            exact ih _ (objSet_nodup acc (jsKey qf.id) none h)
          · have hstep : initAnswersGo acc (some qf :: rest) = initAnswersGo acc rest := by
              simp [initAnswersGo, ht]
            rw [hstep]
            exact ih acc h

/-- C10: after a successful acquisition the answers object holds `null`
for exactly the questions with a truthy id — every entry is `null`, every
entry's key is the key of some question with a truthy id, every question
with a truthy id is present exactly once (keys are not duplicated), and a
non-array questions field yields the empty answers object. -/
theorem initAnswers_correct (quiz : QuizResp) (qs : List (Option QField))
    (h : quiz.questions = some qs) : initAnswersCorrect quiz qs := by
  have hia : initAnswers quiz = initAnswersGo [] qs := by
    unfold initAnswers
    rw [h]
  unfold initAnswersCorrect
  refine ⟨?_, ?_, ?_, ?_, ?_⟩
  · rw [hia]
    exact initAnswersGo_values qs [] (by intro p hp; simp at hp)
  · rw [hia]
    intro p hp
    rcases initAnswersGo_keys qs [] p hp with hl | hr
    · simp at hl
    · exact hr
  · intro qf hqf ht
    rw [hia]
    exact initAnswersGo_get qs [] qf hqf ht
  · rw [hia]
    exact initAnswersGo_nodup qs [] (by simp)
  · intro dOk tl
    rfl

/-- Witness for C10: a three-element questions array with one truthy-id
question, one falsy array entry and one question whose id is falsy. -/
theorem initAnswers_correct_witness :
    initAnswersCorrect
      { dataOk := true, time_limit_minutes := JsVal.num 1,
        questions := some [some { id := JsVal.str "a" }, none,
          some { id := JsVal.num 0 }] }
      [some { id := JsVal.str "a" }, none, some { id := JsVal.num 0 }] :=
  initAnswers_correct
    { dataOk := true, time_limit_minutes := JsVal.num 1,
      questions := some [some { id := JsVal.str "a" }, none,
        some { id := JsVal.num 0 }] }
    [some { id := JsVal.str "a" }, none, some { id := JsVal.num 0 }] rfl

end QuizApp
